import Mathlib

/-!
Shallow embedding of the Personal Finance Dashboard (src/app.py) core
computations: the transaction data model, the aggregation sums, the
financial health score, the insight generator, the budget tracker, the
goal-progress ratios, and the CSV export/import path.  Numeric values are
modelled exactly (ℚ for amounts, ℝ where the code takes a square root);
pandas dataframes become lists of records.
-/

namespace PFD

/-- A calendar date, as held in the dataframe's `Date` column. -/
structure Date where
  year : Nat
  month : Nat
  day : Nat
deriving DecidableEq, Repr

/-- One row of the transaction dataframe: columns Date, Amount, Category,
Description. Positive amount = income, negative = expense. -/
structure Transaction where
  date : Date
  amount : ℚ
  category : String
  description : String
deriving DecidableEq, Repr

/-- The year-month key `df["Date"].dt.to_period("M")` groups by. -/
def monthKey (d : Date) : Nat × Nat := (d.year, d.month)

/-- Embeds `df[df["Amount"] > 0]["Amount"].sum()` (app.py line 86). -/
def totalIncome (l : List Transaction) : ℚ :=
  ((l.filter fun t => 0 < t.amount).map Transaction.amount).sum

/-- Embeds `-df[df["Amount"] < 0]["Amount"].sum()` (app.py line 87). -/
def totalExpenses (l : List Transaction) : ℚ :=
  -((l.filter fun t => t.amount < 0).map Transaction.amount).sum

/-- The expense rows `df[df["Amount"] < 0]`. -/
def expenseTxns (l : List Transaction) : List Transaction :=
  l.filter fun t => t.amount < 0

/-- Embeds `(total_income - total_expenses) / total_income if total_income > 0
else 0` (app.py line 88). -/
def savings_rate (l : List Transaction) : ℚ :=
  if 0 < totalIncome l then (totalIncome l - totalExpenses l) / totalIncome l else 0

/-- Embeds `df[df["Amount"] < 0]["Category"].nunique()` (app.py line 91):
the number of distinct expense categories. -/
def expense_categories (l : List Transaction) : Nat :=
  ((expenseTxns l).map Transaction.category).toFinset.card

/-- Embeds `min(expense_categories / 5, 1)` (app.py line 92). -/
def expense_diversity (l : List Transaction) : ℚ :=
  min ((expense_categories l : ℚ) / 5) 1

/-- The set of year-month keys that contain at least one expense row. -/
def expenseMonths (l : List Transaction) : Finset (Nat × Nat) :=
  ((expenseTxns l).map fun t => monthKey t.date).toFinset

/-- The (negative) sum of expense amounts of month `m`, one groupby cell of
`df[df["Amount"] < 0].groupby(df["Date"].dt.to_period("M"))["Amount"].sum()`. -/
def monthExpenseSum (l : List Transaction) (m : Nat × Nat) : ℚ :=
  (((expenseTxns l).filter fun t => monthKey t.date = m).map Transaction.amount).sum

/-- Embeds the `monthly_expenses` series of app.py line 95 as the multiset of
its values (one per month having expense data; the values are negative sums,
exactly as the code groups the raw negative amounts). -/
def monthly_expenses (l : List Transaction) : Multiset ℚ :=
  (expenseMonths l).val.map (monthExpenseSum l)

/-- Mean of a series, `Series.mean()` (division by zero yields 0 in ℚ; the
code only takes the mean of a series with at least 2 entries). -/
def seriesMean (s : Multiset ℚ) : ℚ := s.sum / s.card

/-- Sample variance of a series with Bessel's correction (ddof = 1), the
square of pandas `Series.std()`. -/
def seriesVar (s : Multiset ℚ) : ℚ :=
  (s.map fun x => (x - seriesMean s) ^ 2).sum / ((s.card : ℚ) - 1)

/-- Sample standard deviation, pandas `Series.std()` (ddof = 1). -/
noncomputable def seriesStd (s : Multiset ℚ) : ℝ :=
  Real.sqrt ((seriesVar s : ℚ) : ℝ)

/-- Embeds `1 - (monthly_expenses.std() / abs(monthly_expenses.mean())) if
len(monthly_expenses) > 1 else 1` (app.py line 96). -/
noncomputable def expense_consistency_raw (l : List Transaction) : ℝ :=
  if 1 < (monthly_expenses l).card then
    1 - seriesStd (monthly_expenses l) / |((seriesMean (monthly_expenses l) : ℚ) : ℝ)|
  else 1

/-- Embeds `calculate_financial_health_score` (app.py lines 80-101). -/
noncomputable def calculate_financial_health_score (l : List Transaction) : ℝ :=
  if l = [] then 0
  else
    let ec : ℝ := max 0 (min (expense_consistency_raw l) 1)
    max 0 (min ((((savings_rate l : ℚ) : ℝ) * 0.5 + ec * 0.3
      + (((expense_diversity l : ℚ) : ℝ)) * 0.2) * 100) 100)

/-- The placeholder returned by `get_spending_insights` for an empty store
(app.py line 108). -/
def placeholderInsight : String := "Add some transactions to get personalized insights!"

/-- Per-category expense magnitude, one cell of
`expense_df.groupby("Category")["Amount"].sum()` after the sign flip of
app.py line 113. -/
def categorySpendingTotal (es : List Transaction) (c : String) : ℚ :=
  ((es.filter fun t => t.category = c).map fun t => -t.amount).sum

/-- The `index[0]` of the descending-sorted category totals (app.py
lines 114-116): a category of maximal total.  Ties among equal totals are
broken by an unspecified sort in the code (pandas quicksort); the fold here
keeps the first maximal category, and no claim depends on the tie choice. -/
def highestCategory (es : List Transaction) : String :=
  ((es.map Transaction.category).dedup).foldl
    (fun best c =>
      if categorySpendingTotal es best < categorySpendingTotal es c then c else best)
    (((es.map Transaction.category).dedup).headD "")

/-- Rule 1 of the insight generator (app.py lines 111-124): when expense
rows exist, one message naming the highest-spending category, plus a
concentration warning when its share exceeds 40%.  The decimal formatting
of the embedded numbers is rendered with `toString`; no claim inspects
these message bodies. -/
def insightsPart1 (l : List Transaction) : List String :=
  if expenseTxns l = [] then []
  else
    ("💡 Your highest spending category is " ++ highestCategory (expenseTxns l)
        ++ " with " ++ toString (categorySpendingTotal (expenseTxns l)
          (highestCategory (expenseTxns l)))
        ++ " = " ++ toString (categorySpendingTotal (expenseTxns l)
            (highestCategory (expenseTxns l))
          / ((expenseTxns l).map fun t => -t.amount).sum * 100)
        ++ "% of total expenses")
      :: (if 40 < categorySpendingTotal (expenseTxns l) (highestCategory (expenseTxns l))
            / ((expenseTxns l).map fun t => -t.amount).sum * 100 then
          ["⚠️ Consider reducing expenses in " ++ highestCategory (expenseTxns l)
            ++ " as it represents a large portion of your spending"]
        else [])

/-- The savings-rate percentage of app.py line 131. -/
def savingsRatePct (l : List Transaction) : ℚ :=
  (totalIncome l - totalExpenses l) / totalIncome l * 100

/-- Rule 2 of the insight generator (app.py lines 130-139): exactly one
savings-rate message when total income is positive, none otherwise. -/
def insightsPart2 (l : List Transaction) : List String :=
  if 0 < totalIncome l then
    if 20 ≤ savingsRatePct l then
      ["🎉 Excellent! You are saving " ++ toString (savingsRatePct l) ++ "% of your income"]
    else if 10 ≤ savingsRatePct l then
      ["👍 Good job! You are saving " ++ toString (savingsRatePct l) ++ "% of your income"]
    else if 0 < savingsRatePct l then
      ["📈 You are saving " ++ toString (savingsRatePct l)
        ++ "%. Try to increase it to at least 10%"]
    else ["🚨 You are spending more than you earn! Review your expenses immediately"]
  else []

/-- Embeds `get_spending_insights` (app.py lines 103-141). -/
def get_spending_insights (l : List Transaction) : List String :=
  if l = [] then [placeholderInsight]
  else insightsPart1 l ++ insightsPart2 l

/-- Date order used by `df.sort_values("Date")`: lexicographic on
year, month, day. -/
def dateLe (a b : Date) : Prop :=
  a.year < b.year ∨ (a.year = b.year ∧
    (a.month < b.month ∨ (a.month = b.month ∧ a.day ≤ b.day)))

instance : DecidableRel dateLe := fun a b => by
  unfold dateLe
  infer_instance

/-- Row order of `df.sort_values("Date")`: compare the Date column. -/
def txnDateLe (a b : Transaction) : Prop := dateLe a.date b.date

instance : DecidableRel txnDateLe := fun a b => by
  unfold txnDateLe
  infer_instance

/-- Embeds `df_sorted = df.sort_values("Date")` (app.py line 336).  The
property proved about it (C5) only uses that sorting permutes the rows, so
the sorting algorithm's tie behaviour is immaterial here. -/
def df_sorted (l : List Transaction) : List Transaction :=
  l.insertionSort txnDateLe

/-- Running-sum helper for `Series.cumsum()`: emits one partial sum per
element, starting from `acc`. -/
def cumsumGo (acc : ℚ) : List ℚ → List ℚ
  | [] => []
  | x :: xs => (acc + x) :: cumsumGo (acc + x) xs

/-- Embeds `df_sorted["Amount"].cumsum()` (app.py line 337): the cumulative
balance series over the date-sorted rows. -/
def cumulativeBalance (l : List Transaction) : List ℚ :=
  cumsumGo 0 ((df_sorted l).map Transaction.amount)

/-- Embeds the Add-Transaction submit handler (app.py lines 225-232): the
row is appended only when the amount is non-zero; a zero amount leaves the
store unchanged and only shows a warning. -/
def form_submit (store : List Transaction) (t : Transaction) : List Transaction :=
  if t.amount ≠ 0 then store ++ [t] else store

/-- The default NA sentinels of `pd.read_csv`: a text cell equal to one of
these (the empty cell included) is read back as NaN. -/
def naValues : List String :=
  ["", "#N/A", "#N/A N/A", "#NA", "-1.#IND", "-1.#QNAN", "-NaN", "-nan",
   "1.#IND", "1.#QNAN", "<NA>", "N/A", "NA", "NULL", "NaN", "None",
   "n/a", "nan", "null"]

/-- The character of a decimal digit. -/
def digitChar (d : Nat) : Char := Char.ofNat (48 + d)

/-- Little-endian base-10 digits with structural fuel recursion (so that
concrete values reduce by the kernel). -/
def digitsFuel : Nat → Nat → List Nat
  | 0, _ => []
  | fuel + 1, n => if n = 0 then [] else n % 10 :: digitsFuel fuel (n / 10)

/-- Little-endian base-10 digits of `n` (empty for 0). -/
def natDigits (n : Nat) : List Nat := digitsFuel n n

/-- Big-endian decimal rendering of `n`, left-padded with zeros to width
`k` — the `%Y`, `%m`, `%d` pieces of the ISO date rendering. -/
def natToPadded (k n : Nat) : List Char :=
  (List.replicate (k - (natDigits n).length) 0 ++ (natDigits n).reverse).map digitChar

/-- ISO 8601 `YYYY-MM-DD`, as `to_csv` writes a date cell. -/
def isoDateStr (d : Date) : String :=
  ⟨natToPadded 4 d.year ++ ('-' :: natToPadded 2 d.month) ++ ('-' :: natToPadded 2 d.day)⟩

/-- Decimal rendering of an integer, as `to_csv` writes an integer cell. -/
def intStr (i : Int) : String :=
  if i < 0 then ⟨'-' :: natToPadded 1 i.natAbs⟩ else ⟨natToPadded 1 i.natAbs⟩

/-- The Amount cell as `to_csv` writes it.  Amounts in the app are numeric;
the integer-valued case (every sample row and every claim instance) is
rendered exactly.  A non-integral value is rendered as an explicit
fraction, which the import side does not parse — the float64 shortest
round-trip decimal rendering is not re-modelled. -/
def amountStr (q : ℚ) : String :=
  if q.den = 1 then intStr q.num
  else intStr q.num ++ "/" ++ ⟨natToPadded 1 q.den⟩

/-- The header row `Date,Amount,Category,Description`. -/
def csvHeader : List String := ["Date", "Amount", "Category", "Description"]

/-- Embeds `st.session_state.df.to_csv(index=False)` (app.py line 189) at
cell granularity: the header row, then one row of rendered cells per
transaction.  The byte-level comma/quote escaping of the CSV format is a
bijective encoding of this cell table and is not re-modelled. -/
def exportTable (l : List Transaction) : List (List String) :=
  csvHeader :: l.map fun t =>
    [isoDateStr t.date, amountStr t.amount, t.category, t.description]

/-- The value of one dataframe cell after `pd.read_csv`: NaN for empty and
NA-sentinel cells, a string in an object-dtype column, and — when column
type inference converts a whole column — a number or a boolean.  A
converted numeric cell keeps its source text (no claim inspects converted
cells beyond their not being the original strings; the float64 value
itself is not re-modelled). -/
inductive CsvValue where
  | nan
  | str (s : String)
  | num (raw : String)
  | boolean (b : Bool)
deriving DecidableEq, Repr

/-- A transaction row as it sits in the dataframe after a CSV import. -/
structure CsvTransaction where
  date : Date
  amount : ℚ
  category : CsvValue
  description : CsvValue
deriving DecidableEq, Repr

/-- The rows the app builds itself carry real strings in every text cell. -/
def toCsvT (t : Transaction) : CsvTransaction :=
  ⟨t.date, t.amount, .str t.category, .str t.description⟩

/-- Decimal digit of a character, if any. -/
def charToDigit (c : Char) : Option Nat :=
  if 48 ≤ c.toNat ∧ c.toNat ≤ 57 then some (c.toNat - 48) else none

/-- Left-to-right decimal accumulation over digit characters. -/
def parseNatAux : Nat → List Char → Option Nat
  | acc, [] => some acc
  | acc, c :: cs => (charToDigit c).bind fun d => parseNatAux (acc * 10 + d) cs

/-- Parse a non-empty all-digit character list as a decimal natural. -/
def parseNatChars (cs : List Char) : Option Nat :=
  if cs = [] then none else parseNatAux 0 cs

/-- Parse an optional minus sign followed by decimal digits. -/
def parseIntChars (cs : List Char) : Option Int :=
  if cs.head? = some '-' then (parseNatChars cs.tail).map fun n => -(n : Int)
  else (parseNatChars cs).map fun n => (n : Int)

/-- Reading an Amount cell back: `read_csv` infers a numeric column. -/
def parseAmountCell (s : String) : Option ℚ :=
  (parseIntChars s.toList).map fun i => (i : ℚ)

/-- Reading a Date cell back as the calendar date it denotes: `read_csv`
itself keeps the ISO string, and the app re-derives the date from it with
`pd.to_datetime` on every read (app.py lines 255, 290, 410). -/
def parseDateCell (s : String) : Option Date :=
  if (s.toList.length = 10 ∧ s.toList.get? 4 = some '-') ∧ s.toList.get? 7 = some '-' then
    (parseNatChars (s.toList.take 4)).bind fun y =>
      (parseNatChars ((s.toList.drop 5).take 2)).bind fun m =>
        (parseNatChars (s.toList.drop 8)).map fun d => (⟨y, m, d⟩ : Date)
  else none

/-- Characters `read_csv` might accept inside a numeric cell: digits,
sign, decimal point, exponent letters, surrounding whitespace, and the
letters of `inf`/`Infinity`.  Deliberately an over-approximation of the
exact float grammar (which is not re-modelled): a cell holding any other
character certainly fails the int64 and float64 conversions. -/
def numericLikeChar (c : Char) : Bool :=
  c.isDigit || c = '+' || c = '-' || c = '.' || c = 'e' || c = 'E'
    || c = ' ' || c = '\t' || c = 'i' || c = 'n' || c = 'f'
    || c = 'I' || c = 'N' || c = 'F' || c = 't' || c = 'y'

/-- A cell `read_csv` might convert to a number (over-approximated, see
`numericLikeChar`). -/
def numericLike (s : String) : Bool :=
  !s.isEmpty && s.toList.all numericLikeChar

/-- A cell `read_csv` might convert to a boolean (a superset of the C
parser's boolean tokens). -/
def boolLike (s : String) : Bool :=
  s == "True" || s == "TRUE" || s == "true" || s == "False" || s == "FALSE" || s == "false"

/-- A text cell that certainly stays a string under column type inference:
neither an NA sentinel nor numeric-looking nor boolean-looking.  One such
cell in a column forces `read_csv` to keep the whole column as strings. -/
def definitelyText (s : String) : Bool :=
  !(decide (s ∈ naValues)) && !numericLike s && !boolLike s

/-- Whether `read_csv` may convert a whole text column: only when every
non-NA cell is numeric-looking, or every cell is boolean-looking (the
over-approximation matching `numericLike`/`boolLike`; a column holding a
`definitelyText` cell is certainly kept as strings). -/
def columnCoerced (cells : List String) : Bool :=
  (cells.all fun s => decide (s ∈ naValues) || numericLike s)
    || (cells.all fun s => decide (s ∈ naValues) || boolLike s)

/-- Reading one text cell back, given whether its column was converted by
type inference: empty and NA-sentinel cells become NaN either way; in an
unconverted (object) column the cell stays the original string; in a
converted column it becomes the boolean or number it denotes. -/
def textCellValue (coerced : Bool) (s : String) : CsvValue :=
  if s ∈ naValues then .nan
  else if coerced then
    (if boolLike s then .boolean (s == "True" || s == "TRUE" || s == "true") else .num s)
  else .str s

/-- One data row of an uploaded CSV: exactly four cells, with a parsable
date and amount; `ccat`/`cdesc` say whether column type inference
converted the Category and Description columns. -/
def parseRowWith (ccat cdesc : Bool) : List String → Option CsvTransaction
  | [d, a, c, ds] =>
    (parseDateCell d).bind fun date =>
      (parseAmountCell a).map fun amount =>
        ⟨date, amount, textCellValue ccat c, textCellValue cdesc ds⟩
  | _ => none

/-- All-or-nothing parse of the data rows. -/
def parseRowsWith (ccat cdesc : Bool) : List (List String) → Option (List CsvTransaction)
  | [] => some []
  | r :: rs => (parseRowWith ccat cdesc r).bind fun t =>
      (parseRowsWith ccat cdesc rs).map fun ts => t :: ts

/-- The cells of column `i` of the data rows. -/
def columnCells (i : Nat) (rows : List (List String)) : List String :=
  rows.map fun r => r.getD i ""

/-- Embeds `pd.read_csv(uploaded_file)` followed by the unconditional
`st.session_state.df = uploaded_df` (app.py lines 380-382) at cell
granularity: the first row is the header, every later row must parse,
column type inference is applied to the Category and Description columns,
and no validation beyond parsing is performed — in particular no amount
is checked against zero. -/
def importTable (table : List (List String)) : Option (List CsvTransaction) :=
  match table with
  | [] => none
  | header :: rows =>
      if header = csvHeader then
        parseRowsWith (columnCoerced (columnCells 2 rows))
          (columnCoerced (columnCells 3 rows)) rows
      else none

/-- Embeds the goal ratio `(current_month_savings / monthly_goal * 100) if
monthly_goal > 0 else 0` (app.py line 538). -/
def monthly_goal_progress (current_month_savings monthly_goal : ℚ) : ℚ :=
  if 0 < monthly_goal then current_month_savings / monthly_goal * 100 else 0

/-- Embeds the goal ratio `(savings / annual_goal * 100) if annual_goal > 0
else 0` (app.py line 545). -/
def annual_goal_progress (savings annual_goal : ℚ) : ℚ :=
  if 0 < annual_goal then savings / annual_goal * 100 else 0

/-- Embeds `(actual / budget * 100) if budget > 0 else 0` (app.py line 271). -/
def usage_percent (actual budget : ℚ) : ℚ :=
  if 0 < budget then actual / budget * 100 else 0

/-- One entry of the `budget_comparison` list built at app.py lines 266-272. -/
structure BudgetRow where
  category : String
  budget : ℚ
  actual : ℚ
  remaining : ℚ
  usagePercent : ℚ
deriving DecidableEq, Repr

/-- The three display classes of app.py lines 278-283. -/
inductive BudgetStatus where
  | overBudget
  | nearLimit
  | onTrack
deriving DecidableEq, Repr

/-- Embeds the classification cascade of app.py lines 278-283:
`usage_pct > 100` → over budget, `elif usage_pct > 80` → near limit,
else on track. -/
def classify (up : ℚ) : BudgetStatus :=
  if 100 < up then .overBudget else if 80 < up then .nearLimit else .onTrack

/-- Embeds `monthly_data[monthly_data["Amount"] < 0]` where `monthly_data`
keeps the rows whose `%Y-%m` key equals the current month (app.py
lines 256-259); the current month, `datetime.now()` in the code, is a
parameter here. -/
def currentMonthExpenses (l : List Transaction) (cm : Nat × Nat) : List Transaction :=
  (l.filter fun t => monthKey t.date = cm).filter fun t => t.amount < 0

/-- Embeds `actual_spending.get(category, 0)` where `actual_spending =
expense_data.groupby("Category")["Amount"].sum().abs()` (app.py
lines 261-265): a category absent from the expense rows yields `|0| = 0`,
exactly the dictionary default. -/
def actual_spending (es : List Transaction) (c : String) : ℚ :=
  |((es.filter fun t => t.category = c).map Transaction.amount).sum|

/-- One row of the comparison, as appended at app.py lines 266-272. -/
def mkBudgetRow (es : List Transaction) (cb : String × ℚ) : BudgetRow :=
  ⟨cb.1, cb.2, actual_spending es cb.1, cb.2 - actual_spending es cb.1,
    usage_percent (actual_spending es cb.1) cb.2⟩

/-- Embeds the Budget-vs-Actual computation of app.py lines 253-272: the
whole block is skipped (no rows) when the store is empty or when the
current month has no expense rows; otherwise one row is built per budget
entry, in the budget configuration's order. -/
def budget_comparison (budgets : List (String × ℚ)) (l : List Transaction)
    (cm : Nat × Nat) : List BudgetRow :=
  if l = [] then []
  else
    if currentMonthExpenses l cm = [] then []
    else budgets.map (mkBudgetRow (currentMonthExpenses l cm))

/-- Net savings, `totalIncome − totalExpenses` (spec §4.2). -/
def netSavings (l : List Transaction) : ℚ := totalIncome l - totalExpenses l

/-- Savings rate as the spec words it: `netSavings / totalIncome` if
`totalIncome > 0` else `0` (spec §4.3 step 1). -/
def savingsRateSpec (l : List Transaction) : ℚ :=
  if 0 < totalIncome l then netSavings l / totalIncome l else 0

/-- Diversity as the spec words it: `min(distinctExpenseCategoryCount / 5, 1)`
(spec §4.3 step 2). -/
def diversitySpec (l : List Transaction) : ℚ :=
  min ((expense_categories l : ℚ) / 5) 1

/-- Per-month expense totals as magnitudes, the spec's
`monthlyExpenseTotals` (spec §4.3 step 3). -/
def monthlyExpenseTotalsSpec (l : List Transaction) : Multiset ℚ :=
  (expenseMonths l).val.map fun m => -(monthExpenseSum l m)

/-- Consistency as the spec words it: 1 when fewer than 2 months have expense
data, otherwise `1 − stddev/|mean|` of the monthly totals clamped to [0,1]. -/
noncomputable def consistencySpec (l : List Transaction) : ℝ :=
  if 2 ≤ (monthlyExpenseTotalsSpec l).card then
    max 0 (min (1 - seriesStd (monthlyExpenseTotalsSpec l)
      / |((seriesMean (monthlyExpenseTotalsSpec l) : ℚ) : ℝ)|) 1)
  else 1

/-- The health score as the spec words it:
`(savingsRate*0.5 + consistency*0.3 + diversity*0.2) * 100` clamped to
[0,100] (spec §4.3 step 4). -/
noncomputable def healthScoreSpec (l : List Transaction) : ℝ :=
  max 0 (min ((((savingsRateSpec l : ℚ) : ℝ) * 0.5 + consistencySpec l * 0.3
    + ((diversitySpec l : ℚ) : ℝ) * 0.2) * 100) 100)

lemma monthlyExpenseTotalsSpec_eq_map_neg (l : List Transaction) :
    monthlyExpenseTotalsSpec l = (monthly_expenses l).map fun x => -x := by
  unfold monthlyExpenseTotalsSpec monthly_expenses
  rw [Multiset.map_map]
  rfl

lemma seriesMean_map_neg (s : Multiset ℚ) :
    seriesMean (s.map fun x => -x) = -seriesMean s := by
  unfold seriesMean
  rw [Multiset.sum_map_neg', Multiset.card_map, neg_div]

lemma seriesVar_map_neg (s : Multiset ℚ) :
    seriesVar (s.map fun x => -x) = seriesVar s := by
  unfold seriesVar
  rw [Multiset.card_map, Multiset.map_map, seriesMean_map_neg]
  have hmap : (((fun x => (x - -seriesMean s) ^ 2) ∘ fun x => -x) : ℚ → ℚ)
      = fun x => (x - seriesMean s) ^ 2 := by
    funext x
    simp only [Function.comp_apply]
    ring
  rw [hmap]

/-- The code's consistency term (which works on the negative monthly sums)
equals the spec's (which works on their magnitudes): the standard deviation
is negation-invariant and the mean only enters through its absolute value. -/
lemma consistency_code_eq_spec (l : List Transaction) :
    max 0 (min (expense_consistency_raw l) 1) = consistencySpec l := by
  unfold expense_consistency_raw consistencySpec
  have hcard : (monthlyExpenseTotalsSpec l).card = (monthly_expenses l).card := by
    rw [monthlyExpenseTotalsSpec_eq_map_neg, Multiset.card_map]
  have hstd : seriesStd (monthlyExpenseTotalsSpec l) = seriesStd (monthly_expenses l) := by
    unfold seriesStd
    rw [monthlyExpenseTotalsSpec_eq_map_neg, seriesVar_map_neg]
  have hmean : |((seriesMean (monthlyExpenseTotalsSpec l) : ℚ) : ℝ)|
      = |((seriesMean (monthly_expenses l) : ℚ) : ℝ)| := by
    rw [monthlyExpenseTotalsSpec_eq_map_neg, seriesMean_map_neg]
    push_cast
    rw [abs_neg]
  by_cases h : 1 < (monthly_expenses l).card
  · rw [if_pos h, if_pos (by omega : 2 ≤ (monthlyExpenseTotalsSpec l).card), hstd, hmean]
  · rw [if_neg h, if_neg (by omega : ¬ 2 ≤ (monthlyExpenseTotalsSpec l).card)]
    norm_num

end PFD

namespace PFD

/-- C1: for every non-empty transaction set the health score equals the
spec's formula `(savingsRate*0.5 + consistency*0.3 + diversity*0.2) * 100`
clamped to [0,100] (with the spec's definitions of the three sub-scores);
in particular a single income transaction of 1000 with no expenses scores
exactly 80. -/
theorem health_score_formula :
    (∀ l : List Transaction, l ≠ [] →
      calculate_financial_health_score l = healthScoreSpec l)
    ∧ calculate_financial_health_score
        [⟨⟨2024, 1, 1⟩, 1000, "Salary", "Monthly salary"⟩] = 80 := by
  have hform : ∀ l : List Transaction, l ≠ [] →
      calculate_financial_health_score l = healthScoreSpec l := by
    intro l hl
    unfold calculate_financial_health_score healthScoreSpec
    rw [if_neg hl, consistency_code_eq_spec]
    rfl
  refine ⟨hform, ?_⟩
  rw [hform _ (by simp)]
  unfold healthScoreSpec consistencySpec savingsRateSpec diversitySpec netSavings
  unfold monthlyExpenseTotalsSpec expenseMonths expense_categories expenseTxns
  unfold totalIncome totalExpenses
  norm_num [List.filter]

lemma perm_totalIncome {l₁ l₂ : List Transaction} (h : l₁.Perm l₂) :
    totalIncome l₁ = totalIncome l₂ :=
  ((h.filter _).map _).sum_eq

lemma perm_totalExpenses {l₁ l₂ : List Transaction} (h : l₁.Perm l₂) :
    totalExpenses l₁ = totalExpenses l₂ := by
  unfold totalExpenses
  rw [((h.filter _).map _).sum_eq]

lemma perm_expenseTxns {l₁ l₂ : List Transaction} (h : l₁.Perm l₂) :
    (expenseTxns l₁).Perm (expenseTxns l₂) := h.filter _

lemma perm_savings_rate {l₁ l₂ : List Transaction} (h : l₁.Perm l₂) :
    savings_rate l₁ = savings_rate l₂ := by
  unfold savings_rate
  rw [perm_totalIncome h, perm_totalExpenses h]

lemma perm_expense_categories {l₁ l₂ : List Transaction} (h : l₁.Perm l₂) :
    expense_categories l₁ = expense_categories l₂ := by
  unfold expense_categories
  rw [List.toFinset_eq_of_perm _ _ ((perm_expenseTxns h).map _)]

lemma perm_expenseMonths {l₁ l₂ : List Transaction} (h : l₁.Perm l₂) :
    expenseMonths l₁ = expenseMonths l₂ :=
  List.toFinset_eq_of_perm _ _ ((perm_expenseTxns h).map _)

lemma perm_monthExpenseSum {l₁ l₂ : List Transaction} (h : l₁.Perm l₂) :
    monthExpenseSum l₁ = monthExpenseSum l₂ := by
  funext m
  exact (((perm_expenseTxns h).filter _).map _).sum_eq

lemma perm_monthly_expenses {l₁ l₂ : List Transaction} (h : l₁.Perm l₂) :
    monthly_expenses l₁ = monthly_expenses l₂ := by
  unfold monthly_expenses
  rw [perm_expenseMonths h, perm_monthExpenseSum h]

/-- C9: the health score is invariant under reordering of the input
transactions — every quantity it is built from (sums over sign-filtered
rows, the distinct-category count, the per-month expense totals) depends
only on the multiset of rows. -/
theorem health_score_perm_invariant :
    ∀ l₁ l₂ : List Transaction, l₁.Perm l₂ →
      calculate_financial_health_score l₁ = calculate_financial_health_score l₂ := by
  intro l₁ l₂ h
  unfold calculate_financial_health_score
  by_cases h₁ : l₁ = []
  · have h₂ : l₂ = [] := (h₁ ▸ h.symm).eq_nil
    rw [if_pos h₁, if_pos h₂]
  · have h₂ : l₂ ≠ [] := fun hc => h₁ (hc ▸ h).eq_nil
    rw [if_neg h₁, if_neg h₂, perm_savings_rate h]
    unfold expense_consistency_raw expense_diversity
    rw [perm_monthly_expenses h, perm_expense_categories h]

/-- Witness for C9: swapping two concrete transactions leaves the score
unchanged. -/
theorem health_score_perm_invariant_witness :
    calculate_financial_health_score
        [⟨⟨2024, 1, 1⟩, 50000, "Salary", "pay"⟩, ⟨⟨2024, 1, 2⟩, -5000, "Food", "groceries"⟩]
      = calculate_financial_health_score
        [⟨⟨2024, 1, 2⟩, -5000, "Food", "groceries"⟩, ⟨⟨2024, 1, 1⟩, 50000, "Salary", "pay"⟩] :=
  health_score_perm_invariant _ _
    (List.Perm.swap (⟨⟨2024, 1, 2⟩, -5000, "Food", "groceries"⟩ : Transaction)
      (⟨⟨2024, 1, 1⟩, 50000, "Salary", "pay"⟩ : Transaction) [])

lemma getLast?_cons_of_ne_nil {α : Type} (a : α) {l : List α} (h : l ≠ []) :
    (a :: l).getLast? = l.getLast? := by
  cases l with
  | nil => exact absurd rfl h
  | cons b m => exact List.getLast?_cons_cons

lemma cumsumGo_ne_nil (acc x : ℚ) (xs : List ℚ) : cumsumGo acc (x :: xs) ≠ [] := by
  simp [cumsumGo]

lemma cumsumGo_getLast :
    ∀ (l : List ℚ) (acc : ℚ), l ≠ [] → (cumsumGo acc l).getLast? = some (acc + l.sum) := by
  intro l
  induction l with
  | nil => intro acc h; exact absurd rfl h
  | cons x xs ih =>
    intro acc _
    by_cases hxs : xs = []
    · subst hxs
      simp [cumsumGo]
    · rw [show cumsumGo acc (x :: xs) = (acc + x) :: cumsumGo (acc + x) xs from rfl]
      have hne : cumsumGo (acc + x) xs ≠ [] := by
        cases xs with
        | nil => exact absurd rfl hxs
        | cons y ys => exact cumsumGo_ne_nil _ y ys
      rw [getLast?_cons_of_ne_nil _ hne, ih (acc + x) hxs, List.sum_cons]
      congr 1
      ring

/-- Income minus expenses over a list of rows equals the plain sum of all
amounts (zero amounts contribute to neither side). -/
lemma netSavings_eq_sum (l : List Transaction) :
    netSavings l = (l.map Transaction.amount).sum := by
  unfold netSavings totalIncome totalExpenses
  induction l with
  | nil => simp
  | cons t ts ih =>
    simp only [List.filter_cons, List.map_cons, List.sum_cons]
    rcases lt_trichotomy t.amount 0 with hlt | heq | hgt
    · rw [if_neg (by simp [not_lt.mpr hlt.le]), if_pos (by simp [hlt])]
      simp only [List.map_cons, List.sum_cons]
      rw [neg_add]
      rw [sub_eq_add_neg] at ih ⊢
      rw [← ih]
      ring
    · rw [if_neg (by simp [heq]), if_neg (by simp [heq])]
      rw [ih, heq, zero_add]
    · rw [if_pos (by simp [hgt]), if_neg (by simp [not_lt.mpr hgt.le])]
      simp only [List.map_cons, List.sum_cons]
      rw [sub_eq_add_neg] at ih ⊢
      rw [← ih]
      ring

/-- C5: for a non-empty transaction set, the final entry of the cumulative
balance series equals the net savings of the full set. -/
theorem cumulative_final_eq_netSavings :
    ∀ l : List Transaction, l ≠ [] →
      (cumulativeBalance l).getLast? = some (netSavings l) := by
  intro l hl
  unfold cumulativeBalance
  have hperm : (df_sorted l).Perm l := List.perm_insertionSort txnDateLe l
  have hne : (df_sorted l).map Transaction.amount ≠ [] := by
    intro hc
    apply hl
    have : df_sorted l = [] := by
      cases hdf : df_sorted l with
      | nil => rfl
      | cons a as => rw [hdf] at hc; exact absurd hc (by simp)
    have hlen := hperm.length_eq
    rw [this] at hlen
    exact List.length_eq_zero.mp hlen.symm
  rw [cumsumGo_getLast _ 0 hne, zero_add, (hperm.map Transaction.amount).sum_eq,
    ← netSavings_eq_sum]

/-- Witness for C5 at a concrete two-row set. -/
theorem cumulative_final_eq_netSavings_witness :
    ([⟨⟨2024, 1, 1⟩, 50000, "Salary", "pay"⟩, ⟨⟨2024, 1, 2⟩, -5000, "Food", "groceries"⟩]
        : List Transaction) ≠ []
    ∧ (cumulativeBalance
        [⟨⟨2024, 1, 1⟩, 50000, "Salary", "pay"⟩, ⟨⟨2024, 1, 2⟩, -5000, "Food", "groceries"⟩]).getLast?
      = some (netSavings
        [⟨⟨2024, 1, 1⟩, 50000, "Salary", "pay"⟩, ⟨⟨2024, 1, 2⟩, -5000, "Food", "groceries"⟩]) :=
  ⟨by simp, cumulative_final_eq_netSavings _ (by simp)⟩

/-- C2: the health score always lies in [0,100], and the empty transaction
set scores exactly 0 (app.py lines 82-83 and 101). -/
theorem health_score_bounds :
    (∀ l : List Transaction,
      0 ≤ calculate_financial_health_score l ∧ calculate_financial_health_score l ≤ 100)
    ∧ calculate_financial_health_score [] = 0 := by
  constructor
  · intro l
    unfold calculate_financial_health_score
    by_cases h : l = []
    · simp [h]
    · simp only [h, if_false]
      refine ⟨le_max_left _ _, ?_⟩
      exact max_le (by norm_num) (min_le_right _ _)
  · unfold calculate_financial_health_score
    simp

/-- C3: every ratio with a zero denominator returns exactly 0: the savings
rate when total income is 0, the budget usage percent when the budget is 0
(regardless of actual spend), and the monthly and annual goal progress when
the goal is 0. -/
theorem zero_denominator_ratios :
    (∀ l : List Transaction, totalIncome l = 0 → savings_rate l = 0)
    ∧ (∀ actual : ℚ, usage_percent actual 0 = 0)
    ∧ (∀ s : ℚ, monthly_goal_progress s 0 = 0)
    ∧ (∀ s : ℚ, annual_goal_progress s 0 = 0) := by
  refine ⟨?_, ?_, ?_, ?_⟩
  · intro l h
    unfold savings_rate
    simp [h]
  · intro actual
    unfold usage_percent
    simp
  · intro s
    unfold monthly_goal_progress
    simp
  · intro s
    unfold annual_goal_progress
    simp

lemma actual_spending_eq_zero {es : List Transaction} {c : String}
    (h : ∀ t ∈ es, t.category ≠ c) : actual_spending es c = 0 := by
  unfold actual_spending
  have hnil : es.filter (fun t => t.category = c) = [] := by
    rw [List.filter_eq_nil_iff]
    intro t ht
    simp [h t ht]
  rw [hnil]
  simp

lemma classify_overBudget_iff (up : ℚ) :
    classify up = BudgetStatus.overBudget ↔ 100 < up := by
  unfold classify
  split_ifs with h1 h2 <;> simp_all

lemma classify_nearLimit_iff (up : ℚ) :
    classify up = BudgetStatus.nearLimit ↔ 80 < up ∧ up ≤ 100 := by
  unfold classify
  split_ifs with h1 h2 <;> simp_all

lemma classify_onTrack_iff (up : ℚ) :
    classify up = BudgetStatus.onTrack ↔ up ≤ 80 := by
  unfold classify
  split_ifs with h1 h2
  · simp_all
    linarith
  · simp_all
  · simp_all

/-- Counterexample to C4: with the one-category budget configuration
`{Food: 10000}` and an empty transaction set, the code produces no status
records at all (the comparison block is guarded by the store and the
current-month expense rows being non-empty), not one per category. -/
theorem budget_comparison_empty_store_no_rows :
    (budget_comparison [("Food", 10000)] [] (2024, 1)).length ≠ 1 := by
  simp [budget_comparison]

/-- C4 (amended): provided the store is non-empty and the current month has
at least one expense row, the tracker returns exactly one status record per
budgeted category, in configuration order, with `actual = 0` for a category
without current-month expense rows, `remaining = budget − actual`, and the
over/near/on-track classification cascading on the usage percent. -/
theorem budget_comparison_amended :
    ∀ (budgets : List (String × ℚ)) (l : List Transaction) (cm : Nat × Nat),
      l ≠ [] → currentMonthExpenses l cm ≠ [] →
      (budget_comparison budgets l cm).length = budgets.length
      ∧ ∀ i (h : i < (budget_comparison budgets l cm).length)
          (h2 : i < budgets.length),
          (budget_comparison budgets l cm).get ⟨i, h⟩
              = mkBudgetRow (currentMonthExpenses l cm) (budgets.get ⟨i, h2⟩)
          ∧ ((budget_comparison budgets l cm).get ⟨i, h⟩).category
              = (budgets.get ⟨i, h2⟩).1
          ∧ ((budget_comparison budgets l cm).get ⟨i, h⟩).budget
              = (budgets.get ⟨i, h2⟩).2
          ∧ ((budget_comparison budgets l cm).get ⟨i, h⟩).remaining
              = ((budget_comparison budgets l cm).get ⟨i, h⟩).budget
                - ((budget_comparison budgets l cm).get ⟨i, h⟩).actual
          ∧ ((∀ t ∈ currentMonthExpenses l cm, t.category ≠ (budgets.get ⟨i, h2⟩).1)
              → ((budget_comparison budgets l cm).get ⟨i, h⟩).actual = 0)
          ∧ (classify ((budget_comparison budgets l cm).get ⟨i, h⟩).usagePercent
                = BudgetStatus.overBudget
              ↔ 100 < ((budget_comparison budgets l cm).get ⟨i, h⟩).usagePercent)
          ∧ (classify ((budget_comparison budgets l cm).get ⟨i, h⟩).usagePercent
                = BudgetStatus.nearLimit
              ↔ 80 < ((budget_comparison budgets l cm).get ⟨i, h⟩).usagePercent
                ∧ ((budget_comparison budgets l cm).get ⟨i, h⟩).usagePercent ≤ 100)
          ∧ (classify ((budget_comparison budgets l cm).get ⟨i, h⟩).usagePercent
                = BudgetStatus.onTrack
              ↔ ((budget_comparison budgets l cm).get ⟨i, h⟩).usagePercent ≤ 80) := by
  intro budgets l cm hl hes
  have hbc : budget_comparison budgets l cm
      = budgets.map (mkBudgetRow (currentMonthExpenses l cm)) := by
    unfold budget_comparison
    rw [if_neg hl, if_neg hes]
  constructor
  · rw [hbc, List.length_map]
  · intro i h h2
    have hrow : (budget_comparison budgets l cm).get ⟨i, h⟩
        = mkBudgetRow (currentMonthExpenses l cm) (budgets.get ⟨i, h2⟩) := by
      simp only [List.get_eq_getElem, hbc, List.getElem_map]
    refine ⟨hrow, ?_, ?_, ?_, ?_, ?_, ?_, ?_⟩
    · rw [hrow]; rfl
    · rw [hrow]; rfl
    · rw [hrow]; rfl
    · intro hnone
      rw [hrow]
      exact actual_spending_eq_zero hnone
    · exact classify_overBudget_iff _
    · exact classify_nearLimit_iff _
    · exact classify_onTrack_iff _

/-- Witness for C4 (amended) at the budget `{Food: 10000}` and a store
holding one current-month Food expense of 12000. -/
theorem budget_comparison_amended_witness :
    ([⟨⟨2024, 1, 5⟩, -12000, "Food", "groceries"⟩] : List Transaction) ≠ []
    ∧ currentMonthExpenses [⟨⟨2024, 1, 5⟩, -12000, "Food", "groceries"⟩] (2024, 1) ≠ []
    ∧ (budget_comparison [("Food", 10000)]
          [⟨⟨2024, 1, 5⟩, -12000, "Food", "groceries"⟩] (2024, 1)).length
        = [("Food", (10000 : ℚ))].length := by
  refine ⟨by simp, ?_, ?_⟩
  · unfold currentMonthExpenses monthKey
    norm_num [List.filter]
  · exact (budget_comparison_amended [("Food", 10000)]
      [⟨⟨2024, 1, 5⟩, -12000, "Food", "groceries"⟩] (2024, 1)
      (by simp)
      (by unfold currentMonthExpenses monthKey; norm_num [List.filter])).1

lemma insightsPart1_length_le (l : List Transaction) : (insightsPart1 l).length ≤ 2 := by
  unfold insightsPart1
  split_ifs <;> simp

lemma insightsPart1_length_pos {l : List Transaction} (h : expenseTxns l ≠ []) :
    1 ≤ (insightsPart1 l).length := by
  unfold insightsPart1
  rw [if_neg h]
  simp

lemma insightsPart2_length_le (l : List Transaction) : (insightsPart2 l).length ≤ 1 := by
  unfold insightsPart2
  split_ifs <;> simp

lemma insightsPart2_length_pos {l : List Transaction} (h : 0 < totalIncome l) :
    1 ≤ (insightsPart2 l).length := by
  unfold insightsPart2
  rw [if_pos h]
  split_ifs <;> simp

lemma totalIncome_pos_of_mem {l : List Transaction} {t : Transaction}
    (ht : t ∈ l) (h : 0 < t.amount) : 0 < totalIncome l := by
  unfold totalIncome
  apply List.sum_pos
  · intro x hx
    obtain ⟨u, hu, rfl⟩ := List.mem_map.mp hx
    exact of_decide_eq_true (List.mem_filter.mp hu).2
  · intro hc
    have hmem : t.amount ∈ (l.filter fun t => 0 < t.amount).map Transaction.amount :=
      List.mem_map_of_mem _ (List.mem_filter.mpr ⟨ht, by simp [h]⟩)
    rw [hc] at hmem
    exact absurd hmem (List.not_mem_nil _)

lemma expenseTxns_ne_nil_of_mem {l : List Transaction} {t : Transaction}
    (ht : t ∈ l) (h : t.amount < 0) : expenseTxns l ≠ [] := by
  intro hc
  have : t ∈ expenseTxns l := List.mem_filter.mpr ⟨ht, by simp [h]⟩
  rw [hc] at this
  exact absurd this (List.not_mem_nil _)

/-- C10: a non-empty transaction set whose amounts are all non-zero yields
between one and three insight messages (rule 1 fires when an expense
exists, rule 2 when an income exists, and one of the two must), while the
empty set yields exactly the single placeholder message. -/
theorem insights_count :
    (∀ l : List Transaction, l ≠ [] → (∀ t ∈ l, t.amount ≠ 0) →
      1 ≤ (get_spending_insights l).length ∧ (get_spending_insights l).length ≤ 3)
    ∧ get_spending_insights []
        = ["Add some transactions to get personalized insights!"] := by
  constructor
  · intro l hl hnz
    unfold get_spending_insights
    rw [if_neg hl]
    rw [List.length_append]
    constructor
    · obtain ⟨t, ht⟩ := List.exists_mem_of_ne_nil l hl
      rcases lt_trichotomy t.amount 0 with hlt | heq | hgt
      · have := insightsPart1_length_pos (expenseTxns_ne_nil_of_mem ht hlt)
        omega
      · exact absurd heq (hnz t ht)
      · have := insightsPart2_length_pos (totalIncome_pos_of_mem ht hgt)
        omega
    · have h1 := insightsPart1_length_le l
      have h2 := insightsPart2_length_le l
      omega
  · unfold get_spending_insights placeholderInsight
    simp

lemma digitsFuel_eq (fuel : Nat) : ∀ n : Nat, n ≤ fuel → digitsFuel fuel n = Nat.digits 10 n := by
  induction fuel with
  | zero =>
    intro n h
    have hn : n = 0 := Nat.le_zero.mp h
    subst hn
    simp [digitsFuel]
  | succ f ih =>
    intro n h
    by_cases hn : n = 0
    · subst hn
      simp [digitsFuel]
    · have hdiv : n / 10 ≤ f := by
        have := Nat.div_lt_self (Nat.pos_of_ne_zero hn) (by norm_num : (1:Nat) < 10)
        omega
      have hstep : digitsFuel (f + 1) n = n % 10 :: digitsFuel f (n / 10) := by
        simp [digitsFuel, hn]
      rw [hstep, ih (n / 10) hdiv,
        ← Nat.digits_def' (by norm_num : (1:Nat) < 10) (Nat.pos_of_ne_zero hn)]

lemma natDigits_eq (n : Nat) : natDigits n = Nat.digits 10 n :=
  digitsFuel_eq n n le_rfl

lemma digits_len_le_of_lt_pow {n k : Nat} (h : n < 10 ^ k) :
    (Nat.digits 10 n).length ≤ k := by
  by_cases hn : n = 0
  · simp [hn]
  · rw [Nat.digits_len 10 n (by norm_num) hn]
    have := (Nat.lt_pow_iff_log_lt (by norm_num : (1:Nat) < 10) hn).mp h
    omega

lemma length_natToPadded {k n : Nat} (h : n < 10 ^ k) : (natToPadded k n).length = k := by
  unfold natToPadded
  rw [List.length_map, List.length_append, List.length_replicate, List.length_reverse]
  have hlen : (natDigits n).length ≤ k := by
    rw [natDigits_eq]
    exact digits_len_le_of_lt_pow h
  omega

lemma charToDigit_digitChar {d : Nat} (h : d < 10) : charToDigit (digitChar d) = some d := by
  interval_cases d <;> decide

lemma digitChar_ne_minus {d : Nat} (h : d < 10) : digitChar d ≠ '-' := by
  interval_cases d <;> decide

lemma mem_natToPadded_base_lt {k n d : Nat}
    (hd : d ∈ List.replicate (k - (natDigits n).length) 0 ++ (natDigits n).reverse) :
    d < 10 := by
  rcases List.mem_append.mp hd with h | h
  · rw [List.eq_of_mem_replicate h]
    norm_num
  · rw [natDigits_eq] at h
    exact Nat.digits_lt_base (by norm_num) (List.mem_reverse.mp h)

lemma natToPadded_head_ne_minus (k n : Nat) : (natToPadded k n).head? ≠ some '-' := by
  cases hds : natToPadded k n with
  | nil => simp
  | cons c rest =>
    have hc : c ∈ natToPadded k n := by
      rw [hds]
      exact List.mem_cons_self _ _
    unfold natToPadded at hc
    obtain ⟨d, hd, rfl⟩ := List.mem_map.mp hc
    simp only [List.head?]
    intro hcontra
    exact digitChar_ne_minus (mem_natToPadded_base_lt hd) (Option.some_injective _ hcontra)

lemma parseNatAux_digits :
    ∀ (ds : List Nat) (a : Nat), (∀ d ∈ ds, d < 10) →
      parseNatAux a (ds.map digitChar) = some (ds.foldl (fun x d => x * 10 + d) a) := by
  intro ds
  induction ds with
  | nil => intro a _; rfl
  | cons d ds ih =>
    intro a hds
    have h1 : d < 10 := hds d (List.mem_cons_self _ _)
    show (charToDigit (digitChar d)).bind (fun e => parseNatAux (a * 10 + e) (ds.map digitChar))
      = _
    rw [charToDigit_digitChar h1, Option.some_bind, ih (a * 10 + d)
      (fun e he => hds e (List.mem_cons_of_mem _ he)), List.foldl_cons]

lemma foldl_digits_eq_ofDigits :
    ∀ (ds : List Nat) (a : Nat),
      ds.foldl (fun x d => x * 10 + d) a = a * 10 ^ ds.length + Nat.ofDigits 10 ds.reverse := by
  intro ds
  induction ds with
  | nil => intro a; simp [Nat.ofDigits]
  | cons d ds ih =>
    intro a
    rw [List.foldl_cons, ih (a * 10 + d), List.reverse_cons, Nat.ofDigits_append]
    simp only [List.length_cons, List.length_reverse, Nat.ofDigits_cons, Nat.ofDigits_nil]
    ring

lemma ofDigits_replicate_zero : ∀ z : Nat, Nat.ofDigits 10 (List.replicate z 0) = 0 := by
  intro z
  induction z with
  | zero => rfl
  | succ z ih => rw [List.replicate_succ, Nat.ofDigits_cons, ih]

lemma parseNatChars_natToPadded (k n : Nat) (hk : 0 < k) :
    parseNatChars (natToPadded k n) = some n := by
  unfold parseNatChars natToPadded
  have hne : ((List.replicate (k - (natDigits n).length) 0 ++ (natDigits n).reverse).map
      digitChar) ≠ [] := by
    intro hc
    have h0 : ((List.replicate (k - (natDigits n).length) 0 ++ (natDigits n).reverse).map
        digitChar).length = 0 := by
      rw [hc]
      rfl
    rw [List.length_map, List.length_append, List.length_replicate, List.length_reverse] at h0
    omega
  rw [if_neg hne, parseNatAux_digits _ 0 (fun d hd => mem_natToPadded_base_lt hd),
    foldl_digits_eq_ofDigits]
  rw [List.reverse_append, List.reverse_reverse, List.reverse_replicate,
    Nat.ofDigits_append, ofDigits_replicate_zero, natDigits_eq, Nat.ofDigits_digits]
  simp

lemma parseDateCell_isoDateStr (d : Date) (hy : d.year < 10000)
    (hm : d.month < 100) (hd : d.day < 100) :
    parseDateCell (isoDateStr d) = some d := by
  have hA : (natToPadded 4 d.year).length = 4 :=
    length_natToPadded (lt_of_lt_of_le hy (by norm_num))
  have hB : (natToPadded 2 d.month).length = 2 :=
    length_natToPadded (lt_of_lt_of_le hm (by norm_num))
  have hC : (natToPadded 2 d.day).length = 2 :=
    length_natToPadded (lt_of_lt_of_le hd (by norm_num))
  have hlist : (isoDateStr d).toList
      = natToPadded 4 d.year
        ++ '-' :: (natToPadded 2 d.month ++ '-' :: natToPadded 2 d.day) := by
    show natToPadded 4 d.year ++ ('-' :: natToPadded 2 d.month) ++ ('-' :: natToPadded 2 d.day)
      = _
    simp
  have hlen10 : (isoDateStr d).toList.length = 10 := by
    rw [hlist]
    simp [hA, hB, hC]
  have hget4 : (isoDateStr d).toList.get? 4 = some '-' := by
    rw [hlist, List.get?_eq_getElem? ..,
      List.getElem?_append_right (le_of_eq hA), hA, Nat.sub_self, List.getElem?_cons_zero]
  have hget7 : (isoDateStr d).toList.get? 7 = some '-' := by
    have hlist7 : (isoDateStr d).toList
        = (natToPadded 4 d.year ++ '-' :: natToPadded 2 d.month)
          ++ '-' :: natToPadded 2 d.day := by
      rw [hlist]
      simp
    have h7 : (natToPadded 4 d.year ++ '-' :: natToPadded 2 d.month).length = 7 := by
      simp [hA, hB]
    rw [hlist7, List.get?_eq_getElem? ..,
      List.getElem?_append_right (le_of_eq h7), h7, Nat.sub_self, List.getElem?_cons_zero]
  have htake4 : (isoDateStr d).toList.take 4 = natToPadded 4 d.year := by
    rw [hlist]
    exact List.take_left' hA
  have hdrop5 : (isoDateStr d).toList.drop 5
      = natToPadded 2 d.month ++ '-' :: natToPadded 2 d.day := by
    have hassoc : (isoDateStr d).toList
        = (natToPadded 4 d.year ++ ['-'])
          ++ (natToPadded 2 d.month ++ '-' :: natToPadded 2 d.day) := by
      rw [hlist]
      simp
    rw [hassoc]
    exact List.drop_left' (by simp [hA])
  have hdrop8 : (isoDateStr d).toList.drop 8 = natToPadded 2 d.day := by
    have hassoc : (isoDateStr d).toList
        = ((natToPadded 4 d.year ++ '-' :: natToPadded 2 d.month) ++ ['-'])
          ++ natToPadded 2 d.day := by
      rw [hlist]
      simp
    rw [hassoc]
    exact List.drop_left' (by simp [hA, hB])
  unfold parseDateCell
  rw [if_pos ⟨⟨hlen10, hget4⟩, hget7⟩, htake4, hdrop5, hdrop8,
    List.take_left' hB,
    parseNatChars_natToPadded 4 _ (by norm_num),
    parseNatChars_natToPadded 2 _ (by norm_num),
    parseNatChars_natToPadded 2 _ (by norm_num)]
  rfl

lemma intCast_of_den_eq_one {q : ℚ} (h : q.den = 1) : ((q.num : Int) : ℚ) = q := by
  conv_rhs => rw [← Rat.num_div_den q]
  rw [h]
  norm_num

lemma parseIntChars_neg (n : Nat) :
    parseIntChars ('-' :: natToPadded 1 n) = some (-(n : Int)) := by
  unfold parseIntChars
  rw [if_pos (show ('-' :: natToPadded 1 n).head? = some '-' from rfl),
    show ('-' :: natToPadded 1 n).tail = natToPadded 1 n from rfl,
    parseNatChars_natToPadded 1 n (by norm_num)]
  rfl

lemma parseIntChars_nonneg (n : Nat) :
    parseIntChars (natToPadded 1 n) = some (n : Int) := by
  unfold parseIntChars
  rw [if_neg (natToPadded_head_ne_minus 1 n),
    parseNatChars_natToPadded 1 n (by norm_num)]
  rfl

lemma parseAmountCell_amountStr {q : ℚ} (h : q.den = 1) :
    parseAmountCell (amountStr q) = some q := by
  unfold parseAmountCell amountStr intStr
  rw [if_pos h]
  by_cases hneg : q.num < 0
  · rw [if_pos hneg]
    show ((parseIntChars ('-' :: natToPadded 1 q.num.natAbs)).map fun i => (i : ℚ)) = some q
    rw [parseIntChars_neg]
    show some ((-(q.num.natAbs : Int) : Int) : ℚ) = some q
    have habs : -((q.num.natAbs : Int)) = q.num := by
      rw [Int.ofNat_natAbs_of_nonpos hneg.le]
      ring
    rw [habs, intCast_of_den_eq_one h]
  · rw [if_neg hneg]
    show ((parseIntChars (natToPadded 1 q.num.natAbs)).map fun i => (i : ℚ)) = some q
    rw [parseIntChars_nonneg]
    show some (((q.num.natAbs : Int) : ℚ)) = some q
    have habs : ((q.num.natAbs : Int)) = q.num := Int.natAbs_of_nonneg (not_lt.mp hneg)
    rw [habs, intCast_of_den_eq_one h]

lemma all_eq_false_of_mem {α : Type} {p : α → Bool} {l : List α} {a : α}
    (ha : a ∈ l) (hp : p a = false) : l.all p = false := by
  cases hall : l.all p with
  | false => rfl
  | true =>
    have := List.all_eq_true.mp hall a ha
    rw [hp] at this
    exact absurd this (by simp)

/-- A column holding one definitely-textual cell is never converted by
column type inference. -/
lemma columnCoerced_false_of_mem {cells : List String} {s : String}
    (hs : s ∈ cells) (h : definitelyText s = true) : columnCoerced cells = false := by
  unfold definitelyText at h
  rw [Bool.and_eq_true, Bool.and_eq_true] at h
  obtain ⟨⟨hna, hnum⟩, hbool⟩ := h
  unfold columnCoerced
  rw [Bool.or_eq_false_iff]
  constructor
  · apply all_eq_false_of_mem hs
    rw [Bool.or_eq_false_iff]
    exact ⟨by simpa using hna, by simpa using hnum⟩
  · apply all_eq_false_of_mem hs
    rw [Bool.or_eq_false_iff]
    exact ⟨by simpa using hna, by simpa using hbool⟩

lemma parseRowWith_exportRow {t : Transaction}
    (h1 : t.date.year < 10000) (h2 : t.date.month < 100) (h3 : t.date.day < 100)
    (h4 : t.amount.den = 1) (h5 : t.category ∉ naValues) (h6 : t.description ∉ naValues) :
    parseRowWith false false
        [isoDateStr t.date, amountStr t.amount, t.category, t.description]
      = some (toCsvT t) := by
  show (parseDateCell (isoDateStr t.date)).bind _ = _
  rw [parseDateCell_isoDateStr _ h1 h2 h3, Option.some_bind,
    parseAmountCell_amountStr h4]
  show some (⟨t.date, t.amount, textCellValue false t.category,
    textCellValue false t.description⟩ : CsvTransaction) = _
  unfold textCellValue toCsvT
  rw [if_neg h5, if_neg h6]
  simp

/-- C6 (amended): export-then-import reproduces the record list exactly,
for every transaction set whose dates are in-range, whose amounts are
integral, whose Category and Description cells are neither empty nor NA
sentinels, and whose Category and Description columns each hold at least
one definitely-textual cell (so that column type inference keeps both
columns as strings). -/
theorem csv_round_trip_amended :
    ∀ l : List Transaction,
      (∀ t ∈ l, (t.date.year < 10000 ∧ t.date.month < 100 ∧ t.date.day < 100)
        ∧ t.amount.den = 1 ∧ t.category ∉ naValues ∧ t.description ∉ naValues) →
      (∃ t ∈ l, definitelyText t.category = true) →
      (∃ t ∈ l, definitelyText t.description = true) →
      importTable (exportTable l) = some (l.map toCsvT) := by
  intro l hl hcat hdesc
  show (if csvHeader = csvHeader then
    parseRowsWith
      (columnCoerced (columnCells 2 (l.map fun t =>
        [isoDateStr t.date, amountStr t.amount, t.category, t.description])))
      (columnCoerced (columnCells 3 (l.map fun t =>
        [isoDateStr t.date, amountStr t.amount, t.category, t.description])))
      (l.map fun t => [isoDateStr t.date, amountStr t.amount, t.category, t.description])
    else none) = _
  rw [if_pos rfl]
  have hc2 : columnCells 2 (l.map fun t =>
      [isoDateStr t.date, amountStr t.amount, t.category, t.description])
      = l.map Transaction.category := by
    unfold columnCells
    rw [List.map_map]
    rfl
  have hc3 : columnCells 3 (l.map fun t =>
      [isoDateStr t.date, amountStr t.amount, t.category, t.description])
      = l.map Transaction.description := by
    unfold columnCells
    rw [List.map_map]
    rfl
  obtain ⟨tc, htc, hdtc⟩ := hcat
  obtain ⟨td, htd, hdtd⟩ := hdesc
  rw [hc2, hc3,
    columnCoerced_false_of_mem (List.mem_map_of_mem Transaction.category htc) hdtc,
    columnCoerced_false_of_mem (List.mem_map_of_mem Transaction.description htd) hdtd]
  clear hc2 hc3 hdtc hdtd htc htd
  induction l with
  | nil => rfl
  | cons t ts ih =>
    obtain ⟨⟨hy, hm, hd⟩, hden, hcatna, hdescna⟩ := hl t (List.mem_cons_self _ _)
    show (parseRowWith false false
        [isoDateStr t.date, amountStr t.amount, t.category, t.description]).bind _ = _
    rw [parseRowWith_exportRow hy hm hd hden hcatna hdescna, Option.some_bind,
      ih (fun u hu => hl u (List.mem_cons_of_mem _ hu))]
    rfl

/-- Witness for C6 (amended) at a one-row store. -/
theorem csv_round_trip_amended_witness :
    (∀ t ∈ ([⟨⟨2024, 1, 1⟩, 50000, "Salary", "Monthly salary"⟩] : List Transaction),
      (t.date.year < 10000 ∧ t.date.month < 100 ∧ t.date.day < 100)
        ∧ t.amount.den = 1 ∧ t.category ∉ naValues ∧ t.description ∉ naValues)
    ∧ (∃ t ∈ ([⟨⟨2024, 1, 1⟩, 50000, "Salary", "Monthly salary"⟩] : List Transaction),
        definitelyText t.category = true)
    ∧ (∃ t ∈ ([⟨⟨2024, 1, 1⟩, 50000, "Salary", "Monthly salary"⟩] : List Transaction),
        definitelyText t.description = true)
    ∧ importTable (exportTable [⟨⟨2024, 1, 1⟩, 50000, "Salary", "Monthly salary"⟩])
        = some ([⟨⟨2024, 1, 1⟩, 50000, "Salary", "Monthly salary"⟩].map toCsvT) :=
  ⟨by decide, by decide, by decide,
    csv_round_trip_amended _ (by decide) (by decide) (by decide)⟩

/-- Counterexample to C6: a valid store whose first description is empty
does not round-trip — `read_csv` turns the empty Description cell into
NaN, so the reimported record differs from the exported one (the second
row keeps the Description column textual, so no type inference is
involved in the failure). -/
theorem csv_round_trip_empty_description_fails :
    importTable (exportTable
        [⟨⟨2024, 1, 1⟩, 100, "Salary", ""⟩, ⟨⟨2024, 1, 2⟩, -50, "Food", "lunch"⟩])
        = some [⟨⟨2024, 1, 1⟩, 100, .str "Salary", .nan⟩,
                ⟨⟨2024, 1, 2⟩, -50, .str "Food", .str "lunch"⟩]
    ∧ importTable (exportTable
        [⟨⟨2024, 1, 1⟩, 100, "Salary", ""⟩, ⟨⟨2024, 1, 2⟩, -50, "Food", "lunch"⟩])
        ≠ some (([⟨⟨2024, 1, 1⟩, 100, "Salary", ""⟩,
                  ⟨⟨2024, 1, 2⟩, -50, "Food", "lunch"⟩]).map toCsvT) := by
  constructor
  · decide
  · decide

/-- Column type inference in action: an all-numeric Description column is
read back as numbers, not as the original strings (an input the amended
round-trip hypothesis excludes). -/
lemma numeric_description_column_is_coerced :
    importTable (exportTable [⟨⟨2024, 1, 1⟩, 100, "Salary", "123"⟩])
      = some [⟨⟨2024, 1, 1⟩, 100, .str "Salary", .num "123"⟩] := by
  decide

/-- C7 (amended): the form submit handler rejects a zero amount with no
state change and preserves the all-amounts-non-zero invariant; the bulk
upload path does not (see the counterexample). -/
theorem form_submit_amount_invariant :
    (∀ (store : List Transaction) (t : Transaction),
      t.amount = 0 → form_submit store t = store)
    ∧ (∀ (store : List Transaction) (t : Transaction),
      (∀ x ∈ store, x.amount ≠ 0) → ∀ x ∈ form_submit store t, x.amount ≠ 0) := by
  constructor
  · intro store t h
    unfold form_submit
    simp [h]
  · intro store t hinv x hx
    unfold form_submit at hx
    by_cases h : t.amount = 0
    · rw [if_neg (by simp [h])] at hx
      exact hinv x hx
    · rw [if_pos h] at hx
      rcases List.mem_append.mp hx with hxs | hxt
      · exact hinv x hxs
      · rw [List.mem_singleton.mp hxt]
        exact h

/-- Counterexample to C7: the import path stores a zero-amount row — an
uploaded CSV row with Amount `0` parses and is placed in the store
unchanged, violating the claimed invariant for the bulk import entry
point. -/
theorem import_stores_zero_amount :
    importTable [csvHeader, ["2024-01-01", "0", "Other", "oops"]]
        = some [⟨⟨2024, 1, 1⟩, 0, .str "Other", .str "oops"⟩]
    ∧ (⟨⟨2024, 1, 1⟩, 0, .str "Other", .str "oops"⟩ : CsvTransaction).amount = 0 := by
  constructor
  · decide
  · rfl

end PFD
